import Mathlib

/-!
Verification development for the alfred-issues workflow.

The definitions below are a shallow embedding of the Python sources
`src/update.py`, `src/issues.py` and `src/jira.py`.  Pure computations become
Lean functions; network responses are passed in explicitly (a page body, a
lookup table, an HTTP status); persisted state (the workflow cache and the
stored recency list) is threaded as explicit values, an operation returning
the new state; points where the code performs an observable effect (issuing a
network request, invoking `run_in_background`) are recorded in explicit trace
fields so that theorems can speak about which effects occur.

The Alfred-Workflow library (`workflow.Workflow`, `workflow.background`) is a
third-party dependency whose code is not part of this repository; the few
library operations the sources rely on (`cached_data`, `cached_data_age`,
`cached_data_fresh`, `run_in_background` / `is_running`) are modelled from the
spec, and each such definition says so in its doc comment.
-/

/-- A normalized issue record, with the fields produced by the
`parse_json_cb` mapping in `update.py` (and by the analogous mappings in
`jira.py`): key, summary, description, issue type name, status name, and a
resolved flag. -/
structure Issue where
  key : String
  summary : String
  description : String
  issueType : String
  status : String
  resolved : Bool
deriving DecidableEq, Repr

/-- Embedding of the inner `get_issues` recursion of
`ConcurrentJiraClient.get_all_issues` (update.py lines 51-62), instrumented
with the list of `startAt` offsets at which page requests are issued.

The Python code issues the HTTP request for offset `start_at` first
(`future = s.get(...)`), computes `next_at = start_at + max_results`,
recurses when `next_at < total`, and finally joins the futures with
`future.result().data + data` — so the page bodies are concatenated in
ascending offset order no matter in which order the underlying requests
complete.  `page o` stands for the parsed body of the page at offset `o`
(the result of `parse_json_cb` on that response); because the result is
assembled from `page` indexed by offset, completion order cannot appear in
this embedding at all.  The hypothesis `hm` mirrors the fact that the Python
recursion terminates only for a positive `max_results`. -/
def get_issues (total maxResults : Nat) (hm : 0 < maxResults)
    (page : Nat → List Issue) (startAt : Nat) : List Nat × List Issue :=
  if _h : startAt + maxResults < total then
    let rest := get_issues total maxResults hm page (startAt + maxResults)
    (startAt :: rest.1, page startAt ++ rest.2)
  else
    ([startAt], page startAt)
termination_by total - startAt
decreasing_by omega

/-- Embedding of `ConcurrentJiraClient.get_all_issues` (update.py lines
27-65): run the `get_issues` recursion from its default starting offset 0.
First component: the offsets at which page requests are issued; second
component: the returned issue sequence. -/
def get_all_issues (total maxResults : Nat) (hm : 0 < maxResults)
    (page : Nat → List Issue) : List Nat × List Issue :=
  get_issues total maxResults hm page 0

/-- Failure-aware variant of the `get_issues` recursion of update.py.  A page
request either yields a parsed body (`some body`) or fails — by HTTP error or
timeout — when its future is joined; `none` models the exception raised by
`future.result()`.  The joins happen exactly as in the source: the recursive
call (`data = get_issues(next_at)`) is evaluated before
`return future.result().data + data`, and any single failure propagates, so
the whole fetch raises instead of producing a partial result. -/
def get_issuesE (total maxResults : Nat) (hm : 0 < maxResults)
    (pageE : Nat → Option (List Issue)) (startAt : Nat) :
    Option (List Issue) :=
  if _h : startAt + maxResults < total then
    match get_issuesE total maxResults hm pageE (startAt + maxResults) with
    | none => none
    | some data =>
      match pageE startAt with
      | none => none
      | some d => some (d ++ data)
  else
    pageE startAt
termination_by total - startAt
decreasing_by omega

/-- Failure-aware embedding of `ConcurrentJiraClient.get_all_issues`,
starting from offset 0. -/
def get_all_issuesE (total maxResults : Nat) (hm : 0 < maxResults)
    (pageE : Nat → Option (List Issue)) : Option (List Issue) :=
  get_issuesE total maxResults hm pageE 0

/-- Offsets at which the `get_issues` recursion issues its page requests,
starting from `startAt`: the trace component of `get_issues`, which does not
depend on the page bodies (the requests are all issued before any future is
joined). -/
def issued_offsets (total maxResults : Nat) (hm : 0 < maxResults)
    (startAt : Nat) : List Nat :=
  (get_issues total maxResults hm (fun _ => []) startAt).1

/-- Modelled from the spec: a CacheStore entry (spec §3) — the cached value,
an ordered sequence of normalized records, together with the timestamp at
which it was written.  In the implementation this is an Alfred-Workflow cache
file whose modification time is the timestamp; that library is not part of
this repository. -/
structure CacheEntry where
  value : List Issue
  storedAt : Int
deriving DecidableEq, Repr

/-- Freshness classification of a cache entry (spec §4.1). -/
inductive Freshness where
  | missing
  | stale
  | fresh
deriving DecidableEq, Repr

/-- Modelled from the spec: `FreshnessPolicy.evaluate(entry, max_age)` (spec
§4.1), the decision implemented by the Alfred-Workflow cache helpers, which
are not part of this repository: Missing if no entry exists; otherwise with
`age = now - stored_at`, Fresh if `age < max_age` and Stale if
`age >= max_age` (the boundary is Stale). -/
def evaluate (entry : Option CacheEntry) (now maxAge : Int) : Freshness :=
  match entry with
  | none => Freshness.missing
  | some e => if now - e.storedAt < maxAge then Freshness.fresh else Freshness.stale

/-- Modelled from the spec: the Alfred-Workflow helper
`wf.cached_data_age(name)` used at issues.py line 81 — the age of the cached
entry, or 0 when no entry exists. -/
def cached_data_age (entry : Option CacheEntry) (now : Int) : Int :=
  match entry with
  | none => 0
  | some e => now - e.storedAt

/-- Modelled from the spec: the Alfred-Workflow helper
`wf.cached_data_fresh(name, max_age)` used at issues.py line 84 — true
exactly when an entry exists and its age is strictly below `max_age`
(spec §4.1). -/
def cached_data_fresh (entry : Option CacheEntry) (now maxAge : Int) : Bool :=
  match entry with
  | none => false
  | some e => now - e.storedAt < maxAge

/-- Outcome of one `wf.cached_data(name, data_func, max_age)` call: the cache
entry afterwards, the value the call returns (`none` models Python `None`),
whether `data_func` was invoked, and whether it raised — in which case the
exception propagates to the caller and nothing is written. -/
structure CachedDataResult where
  store : Option CacheEntry
  value : Option (List Issue)
  fetched : Bool
  raised : Bool
deriving DecidableEq, Repr

/-- Modelled from the spec: the Alfred-Workflow entry point
`wf.cached_data(name, data_func, max_age)` (used at update.py line 79 and
issues.py line 101), which combines CacheStore reads and writes with the
freshness policy (spec §4.1, §6).  While the entry is fresh
(`age < max_age`) the cached value is returned and nothing is fetched;
`max_age = 0` returns the stored value no matter how old, which is how
issues.py line 101 reads the cache without triggering any fetch.  Otherwise
`data_func` is invoked: `dataFunc = none` models passing `None` (nothing to
run, the call returns `None`); `some none` a fetch that raises, leaving the
store untouched; `some (some v)` a fetch returning `v`, committed wholesale
with the timestamp reset to now (spec §6: `set` also resets `stored_at`). -/
def cached_data (entry : Option CacheEntry) (now maxAge : Int)
    (dataFunc : Option (Option (List Issue))) : CachedDataResult :=
  if cached_data_fresh entry now maxAge = true ∨ (maxAge = 0 ∧ entry.isSome = true) then
    { store := entry, value := entry.map CacheEntry.value,
      fetched := false, raised := false }
  else
    match dataFunc with
    | none => { store := entry, value := none, fetched := false, raised := false }
    | some none => { store := entry, value := none, fetched := true, raised := true }
    | some (some v) =>
      { store := some { value := v, storedAt := now }, value := some v,
        fetched := true, raised := false }

/-- One tokenized command-line argument recognised by update.py's argparse
configuration (update.py lines 70-74): `--total` (required), `--max-results`
(optional), `--max-age` (optional), and the positional project key. -/
inductive UpdateArg where
  | total (n : Nat)
  | maxResults (n : Nat)
  | maxAge (n : Int)
  | project (key : String)
deriving DecidableEq, Repr

/-- Parsed command-line arguments of update.py. -/
structure UpdateArgs where
  total : Nat
  maxResults : Nat
  maxAge : Int
  project : String
deriving DecidableEq, Repr

/-- Accumulator while folding over the argument list: required arguments
start absent, optional ones at their argparse defaults. -/
structure UpdateArgState where
  total : Option Nat
  maxResults : Nat
  maxAge : Int
  project : Option String
deriving DecidableEq, Repr

/-- Embedding of the argparse configuration of update.py `main` (lines
70-75): `--max-results` defaults to 50 and `--max-age` to 600; `--total` and
the positional project key are required, and parsing fails without them. -/
def parse_update_args (argv : List UpdateArg) : Option UpdateArgs :=
  let st := argv.foldl
    (fun (st : UpdateArgState) a =>
      match a with
      | UpdateArg.total n => { st with total := some n }
      | UpdateArg.maxResults n => { st with maxResults := n }
      | UpdateArg.maxAge n => { st with maxAge := n }
      | UpdateArg.project k => { st with project := some k })
    { total := none, maxResults := 50, maxAge := 600, project := none }
  match st.total, st.project with
  | some t, some p =>
    some { total := t, maxResults := st.maxResults, maxAge := st.maxAge,
           project := p }
  | _, _ => none

/-- Embedding of `main` in update.py (lines 68-83): cache the project's
issues through `wf.cached_data(project_key, fetch, max_age=args.max_age)`,
where `fetch` runs `get_all_issues(project_key, args.total,
args.max_results)`.  `pageE o` is the body the server would serve for the
page at offset `o` (`none`: that page request fails or times out).  The run
reports failure — a non-zero exit of the background process — exactly when
the result has `raised = true`. -/
def update_main (entry : Option CacheEntry) (now : Int) (args : UpdateArgs)
    (hm : 0 < args.maxResults) (pageE : Nat → Option (List Issue)) :
    CachedDataResult :=
  cached_data entry now args.maxAge
    (some (get_all_issuesE args.total args.maxResults hm pageE))

/-- A network call performed synchronously by the foreground command
itself. -/
inductive NetCall where
  | getTotal (projectKey : String)
deriving DecidableEq, Repr

/-- Feedback items produced by `search_for_issues_cached` through the `fb`
builder (presentation layer, abstracted to tags). -/
inductive FbItem where
  | updating
  | activeProject (key : String)
  | warningNoIssues (key : String)
  | issue (i : Issue)
deriving DecidableEq, Repr

/-- Local state visible to the foreground command for one project key: the
cache entry for that key, the current time, and which background job names
the Alfred-Workflow `is_running` probe reports alive. -/
structure FgEnv where
  entry : Option CacheEntry
  now : Int
  running : String → Bool

/-- Observable outcome of `search_for_issues_cached`: the network calls the
foreground performed itself, the job name handed to `run_in_background` (when
it was invoked), whether a new background process was actually spawned, the
feedback items, and the issue list backing them. -/
structure FgOut where
  netCalls : List NetCall
  jobName : Option String
  spawned : Bool
  items : List FbItem
  result : List Issue
deriving DecidableEq, Repr

/-- Embedding of `search_for_issues_cached(query, project_key)` (issues.py
lines 79-111), line by line: `is_cached = wf.cached_data_age(key) > 0`; if
`not wf.cached_data_fresh(key, max_age=DEFAULT_MAX_AGE)` (with
`DEFAULT_MAX_AGE = 600`, issues.py line 15) the function creates a REST
client and synchronously calls `jira.get_total(project_key)` — a network
request performed by the foreground process itself (jira.py lines 93-101) —
and then invokes `run_in_background('update', cmd)`; modelled from the spec,
`run_in_background` / `is_running` (JobSupervisor, spec §4.2) spawn a new
detached process only when no job under that name is alive, and the name
passed here is the constant string `'update'`, not derived from the project
key.  Next, `is_running('update')` selects the updating / active-project
feedback item (a job the call itself just spawned is alive at that point);
finally the cached issues are read with `wf.cached_data(key, None,
max_age=0)`, filtered by the query through the workflow fuzzy filter
(library code, abstracted as the parameter `filt`), and rendered. -/
def search_for_issues_cached (env : FgEnv) (query : Option String)
    (filt : String → List Issue → List Issue) (projectKey : String) : FgOut :=
  let isCached := decide (0 < cached_data_age env.entry env.now)
  let notFresh := !(cached_data_fresh env.entry env.now 600)
  let netCalls := if notFresh then [NetCall.getTotal projectKey] else []
  let jobName := if notFresh then some "update" else none
  let spawned := notFresh && !(env.running "update")
  let runningNow := env.running "update" || spawned
  let items0 :=
    if runningNow then [FbItem.updating]
    else if isCached then [FbItem.activeProject projectKey]
    else []
  let issues0 := (cached_data env.entry env.now 0 none).value.getD []
  let issues :=
    match query with
    | some q => if !issues0.isEmpty then filt q issues0 else issues0
    | none => issues0
  if issues.isEmpty then
    { netCalls := netCalls, jobName := jobName, spawned := spawned,
      items := items0 ++ (if isCached then [FbItem.warningNoIssues projectKey] else []),
      result := [] }
  else
    { netCalls := netCalls, jobName := jobName, spawned := spawned,
      items := items0 ++ issues.map FbItem.issue,
      result := issues }

/-- Embedding of `add_recent(issue_key)` (issues.py lines 26-34), acting on
the stored recency list and returning the list that
`wf.store_data('recent', recent)` persists: remove the key's first occurrence
if present (`list.remove`), insert at the front (`list.insert(0, ...)`), and
drop the last element when the length exceeds 9 (`list.pop()`). -/
def add_recent (recent : List String) (issueKey : String) : List String :=
  let recent1 := if issueKey ∈ recent then recent.erase issueKey else recent
  let recent2 := issueKey :: recent1
  if recent2.length > 9 then recent2.dropLast else recent2

/-- A network request issued by `Client.get_issues` (jira.py lines 157-185):
one bulk `/search` with `key in (...)` over a list of keys, or one individual
`/issue/<key>` probe (`get_issue`) from the deleted-issue workaround. -/
inductive JiraReq where
  | bulkSearch (keys : List String)
  | singleIssue (key : String)
deriving DecidableEq, Repr

/-- Embedding of `Client.get_issues(issue_keys, retrying)` (jira.py lines
157-185), instrumented with its request trace.  `lookup k` is the upstream
state: the issue a key currently resolves to, or `none` for a key deleted
upstream.  The bulk `/search` answers 400 when some requested key fails to
resolve — the situation the source's "Workaround for deleted issues" comment
describes; in that case the code probes every key individually with
`get_issue`, keeps the keys that resolve, and retries the bulk search once
with `retrying=True`.  A 200 answer carries the issues of the resolving keys
in server order, modelled by applying `serverOrder` (an arbitrary
permutation, fixed by hypothesis in the theorems) to those issues; a 400
while already retrying propagates as an exception (`none`). -/
def Client.get_issues (lookup : String → Option Issue)
    (serverOrder : List Issue → List Issue) (issueKeys : List String)
    (retrying : Bool) : List JiraReq × Option (List Issue) :=
  if issueKeys.all (fun k => (lookup k).isSome) then
    ([JiraReq.bulkSearch issueKeys],
     some (serverOrder (issueKeys.filterMap lookup)))
  else if _hr : retrying = false then
    let validKeys := issueKeys.filter (fun k => (lookup k).isSome)
    let rest := Client.get_issues lookup serverOrder validKeys true
    (JiraReq.bulkSearch issueKeys :: (issueKeys.map JiraReq.singleIssue ++ rest.1),
     rest.2)
  else
    ([JiraReq.bulkSearch issueKeys], none)
termination_by (if retrying then 0 else 1)
decreasing_by subst _hr; simp

/-- Outcome of `search_for_recent` relevant to the recency-list contract: the
resolved issues in the order they are shown (after recency sorting, before
query filtering), the recency list as persisted afterwards
(`wf.store_data('recent', valid_keys)` runs only when some key failed to
resolve; otherwise the stored list is left as it was), and the network
requests issued. -/
structure RecentOut where
  issues : List Issue
  persisted : List String
  reqs : List JiraReq
deriving DecidableEq, Repr

/-- Embedding of `search_for_recent(query)` (issues.py lines 144-156) up to
the point where the issues are handed to the presentation layer: read the
stored recency list, bulk-resolve it through `Client.get_issues` (only when
non-empty), re-sort the fetched issues by `recent_keys.index(issue['key'])`
— Python's `sorted` is a stable sort, embedded as `List.insertionSort`,
which is also stable and therefore computes the same list — and, when not
all keys could be fetched, persist the keys of the sorted issues as the new
recency list. -/
def search_for_recent (recentKeys : List String)
    (lookup : String → Option Issue)
    (serverOrder : List Issue → List Issue) : RecentOut :=
  let fetched :=
    if 0 < recentKeys.length then
      Client.get_issues lookup serverOrder recentKeys false
    else ([], some [])
  let recent := (fetched.2).getD []
  let issues := List.insertionSort
    (fun a b => recentKeys.indexOf a.key ≤ recentKeys.indexOf b.key) recent
  let persisted :=
    if recentKeys.length ≠ recent.length then issues.map Issue.key
    else recentKeys
  { issues := issues, persisted := persisted, reqs := fetched.1 }

/-- An issue type entry of a `/project/<key>` payload as read by jira.py
lines 46-49. -/
structure IssueType where
  id : String
  name : String
  subtask : Bool
deriving DecidableEq, Repr

/-- A valid issue type kept by `Client.get_project` (only `id` and `name`
survive the mapping at jira.py lines 46-49). -/
structure IssueTypeRef where
  id : String
  name : String
deriving DecidableEq, Repr

/-- Payload of a `/project/<key>` answer, restricted to the fields jira.py
reads. -/
structure ProjectJson where
  id : String
  key : String
  name : String
  issueTypes : List IssueType
deriving DecidableEq, Repr

/-- Normalized project record built by `Client.get_project` (jira.py lines
51-56). -/
structure Project where
  id : String
  key : String
  name : String
  issueTypes : List IssueTypeRef
deriving DecidableEq, Repr

/-- An HTTP response to the single-project lookup: status code plus the
parsed payload carried when the body is project JSON. -/
structure HttpResponse where
  statusCode : Nat
  body : ProjectJson
deriving DecidableEq, Repr

/-- Embedding of `requests.Response.raise_for_status` as used by jira.py: it
raises (modelled as `Except.error` carrying the status code) for any 4xx or
5xx status and is a no-op otherwise.  The requests library is a dependency,
not part of this repository; this is its documented contract. -/
def raise_for_status (statusCode : Nat) : Except Nat Unit :=
  if 400 ≤ statusCode ∧ statusCode < 600 then Except.error statusCode
  else Except.ok ()

/-- Embedding of `Client.get_project(project_key)` (jira.py lines 32-56):
`r.raise_for_status()` runs first; only then is `r.status_code == 404`
compared (the branch that would return `None`), any other status running
`raise_for_status` once more; finally the 200 payload is normalized, keeping
only the non-subtask issue types. -/
def Client.get_project (r : HttpResponse) : Except Nat (Option Project) :=
  match raise_for_status r.statusCode with
  | Except.error e => Except.error e
  | Except.ok _ =>
    if r.statusCode == 404 then
      Except.ok none
    else
      match raise_for_status r.statusCode with
      | Except.error e => Except.error e
      | Except.ok _ =>
        let item := r.body
        let issueTypes := (item.issueTypes.filter (fun t => !t.subtask)).map
          (fun t => ({ id := t.id, name := t.name } : IssueTypeRef))
        Except.ok (some { id := item.id, key := item.key, name := item.name,
                          issueTypes := issueTypes })
/-- Characterisation of one `get_issues` call from a starting offset that
lies below `total`: the offsets it requests are the arithmetic progression
`startAt, startAt + m, …` of length `⌈(total - startAt) / m⌉`, and the issue
lists of those pages are concatenated in ascending-offset order. -/
theorem get_issues_eq_range' (total m : Nat) (hm : 0 < m)
    (page : Nat → List Issue) :
    ∀ startAt, startAt < total →
      get_issues total m hm page startAt =
        (List.range' startAt ((total - startAt + m - 1) / m) m,
         ((List.range' startAt ((total - startAt + m - 1) / m) m).map
           page).flatten) := by
  have H : ∀ k startAt, total - startAt ≤ k → startAt < total →
      get_issues total m hm page startAt =
        (List.range' startAt ((total - startAt + m - 1) / m) m,
         ((List.range' startAt ((total - startAt + m - 1) / m) m).map
           page).flatten) := by
    intro k
    induction k with
    | zero => intro s hle hlt; omega
    | succ k ih =>
      intro s hle hlt
      rw [get_issues]
      by_cases h : s + m < total
      · rw [dif_pos h, ih (s + m) (by omega) h]
        have hcount : (total - s + m - 1) / m = (total - (s + m) + m - 1) / m + 1 := by
          have h1 : total - s + m - 1 = (total - (s + m) + m - 1) + m := by omega
          rw [h1, Nat.add_div_right _ hm]
        rw [hcount, List.range'_succ]
        simp [List.flatten]
      · rw [dif_neg h]
        have hcount : (total - s + m - 1) / m = 1 := by
          have h1 : total - s + m - 1 = (total - s - 1) + m := by omega
          rw [h1, Nat.add_div_right _ hm, Nat.div_eq_of_lt (by omega)]
        rw [hcount]
        simp [List.range']
  intro startAt h
  exact H (total - startAt) startAt le_rfl h

/-- C1 (amended).  For every `total > 0` and `page_size > 0`, the paginated
fetch issues page requests exactly at the offsets `0, page_size,
2*page_size, …` that are strictly less than `total` — equivalently, the
arithmetic progression starting at 0 with step `page_size` and length
`⌈total / page_size⌉`, in ascending order — and the returned sequence is the
concatenation of the fetched pages in ascending-offset order (completion
order cannot affect it: the result is assembled from the per-offset page
bodies).  The claim's added assertion that `total = 0` yields no requests is
false and is corrected by `c1_total_zero_counterexample`: at `total = 0` a
single page request is issued, at offset 0. -/
theorem c1_paginated_fetch (total m o : Nat) (hm : 0 < m) (htotal : 0 < total)
    (page : Nat → List Issue) :
    (get_all_issues total m hm page).1 = List.range' 0 ((total + m - 1) / m) m ∧
    (o ∈ (get_all_issues total m hm page).1 ↔ o % m = 0 ∧ o < total) ∧
    (get_all_issues total m hm page).2 =
      ((get_all_issues total m hm page).1.map page).flatten := by
  have h := get_issues_eq_range' total m hm page 0 htotal
  unfold get_all_issues
  rw [h]
  simp only [Nat.sub_zero]
  refine ⟨by trivial, ?_, by trivial⟩
  rw [List.mem_range']
  constructor
  · rintro ⟨i, hi, rfl⟩
    have h2 : (i + 1) * m ≤ total + m - 1 :=
      (Nat.le_div_iff_mul_le hm).mp (Nat.succ_le_of_lt hi)
    rw [Nat.succ_mul] at h2
    constructor
    · simp [Nat.mul_mod_right]
    · have h3 : m * i = i * m := Nat.mul_comm m i
      omega
  · rintro ⟨hmod, hlt⟩
    obtain ⟨i, rfl⟩ := Nat.dvd_of_mod_eq_zero hmod
    refine ⟨i, ?_, by omega⟩
    rw [Nat.lt_iff_add_one_le, Nat.le_div_iff_mul_le hm, Nat.succ_mul]
    have h3 : m * i = i * m := Nat.mul_comm m i
    omega

/-- Witness for `c1_paginated_fetch` at `total = 125`, `page_size = 50`,
`o = 100`, with pages carrying distinct issue keys per offset. -/
theorem c1_paginated_fetch_witness :
    (0 : Nat) < 50 ∧ (0 : Nat) < 125 ∧
    ((get_all_issues 125 50 (by decide)
        (fun off => [{ key := if off = 0 then "A" else if off = 50 then "B" else "C",
                       summary := "", description := "", issueType := "",
                       status := "", resolved := false }])).1 =
      List.range' 0 ((125 + 50 - 1) / 50) 50 ∧
     (100 ∈ (get_all_issues 125 50 (by decide)
        (fun off => [{ key := if off = 0 then "A" else if off = 50 then "B" else "C",
                       summary := "", description := "", issueType := "",
                       status := "", resolved := false }])).1 ↔
        100 % 50 = 0 ∧ 100 < 125) ∧
     (get_all_issues 125 50 (by decide)
        (fun off => [{ key := if off = 0 then "A" else if off = 50 then "B" else "C",
                       summary := "", description := "", issueType := "",
                       status := "", resolved := false }])).2 =
      ((get_all_issues 125 50 (by decide)
        (fun off => [{ key := if off = 0 then "A" else if off = 50 then "B" else "C",
                       summary := "", description := "", issueType := "",
                       status := "", resolved := false }])).1.map
        (fun off => [{ key := if off = 0 then "A" else if off = 50 then "B" else "C",
                       summary := "", description := "", issueType := "",
                       status := "", resolved := false }])).flatten) :=
  ⟨by decide, by decide,
   c1_paginated_fetch 125 50 100 (by decide) (by decide) _⟩

/-- C1 counterexample.  The claim asserts that `total = 0` yields no page
requests; in the code `get_issues()` issues the request for offset 0 before
testing `next_at < total`, so one request (at offset 0) is issued even when
there is nothing to fetch. -/
theorem c1_total_zero_counterexample :
    (get_all_issues 0 50 (by decide) (fun _ => [])).1 = [0] ∧
    ¬((get_all_issues 0 50 (by decide) (fun _ => [])).1 = []) := by
  rw [get_all_issues, get_issues]
  simp

/-- C9 (confirmed, against the spec-modelled freshness policy).  Freshness
classification is a pure function of the entry and `max_age`: Missing when no
entry exists; otherwise with `age = now - stored_at`, Fresh exactly when
`age < max_age` and Stale exactly when `age ≥ max_age`; the Boolean helper
`cached_data_fresh` used by `search_for_issues_cached` agrees with the
classifier; and at the boundary, an entry stored at `t0` is Fresh when
queried at `t0 + max_age - 1` and Stale when queried at `t0 + max_age`. -/
theorem c9_freshness_classification (entry : Option CacheEntry)
    (now maxAge t0 d : Int) (e : CacheEntry) (v : List Issue) :
    evaluate none now maxAge = Freshness.missing ∧
    (evaluate (some e) now maxAge = Freshness.fresh ↔ now - e.storedAt < maxAge) ∧
    (evaluate (some e) now maxAge = Freshness.stale ↔ maxAge ≤ now - e.storedAt) ∧
    (cached_data_fresh entry now maxAge = true ↔
      evaluate entry now maxAge = Freshness.fresh) ∧
    evaluate (some { value := v, storedAt := t0 }) (t0 + d - 1) d = Freshness.fresh ∧
    evaluate (some { value := v, storedAt := t0 }) (t0 + d) d = Freshness.stale := by
  have hstale : evaluate (some e) now maxAge = Freshness.stale ↔
      ¬(now - e.storedAt < maxAge) := by
    by_cases h : now - e.storedAt < maxAge <;> simp [evaluate, h]
  refine ⟨rfl, ?_, ?_, ?_, ?_, ?_⟩
  · by_cases h : now - e.storedAt < maxAge <;> simp [evaluate, h]
  · rw [hstale, Int.not_lt]
  · match entry with
    | none => simp [evaluate, cached_data_fresh]
    | some e' =>
      by_cases h : now - e'.storedAt < maxAge <;> simp [evaluate, cached_data_fresh, h]
  · have h : t0 + d - 1 - t0 < d := by omega
    simp [evaluate, h]
  · have h : ¬(t0 + d - t0 < d) := by omega
    simp [evaluate, h]

/-- C10 (confirmed).  For every response to the single-project lookup whose
HTTP status is 404, `get_project` raises (`raise_for_status` runs before the
status code is compared with 404, and 404 is a 4xx status), and the branch
that would return `None` is unreachable: no response at all can make
`get_project` return `Ok None`. -/
theorem c10_get_project_404_raises (r : HttpResponse)
    (h404 : r.statusCode = 404) :
    (∃ e, Client.get_project r = Except.error e) ∧
    (∀ s, Client.get_project s ≠ Except.ok none) := by
  constructor
  · refine ⟨404, ?_⟩
    have h : 400 ≤ r.statusCode ∧ r.statusCode < 600 := by omega
    simp [Client.get_project, raise_for_status, h, h404]
  · intro s
    unfold Client.get_project raise_for_status
    by_cases h : 400 ≤ s.statusCode ∧ s.statusCode < 600
    · simp [h]
    · have hne : s.statusCode ≠ 404 := by
        intro heq
        exact h (by omega)
      simp [h, hne]

/-- Witness for `c10_get_project_404_raises` at a concrete 404 response. -/
theorem c10_get_project_404_raises_witness :
    ({ statusCode := 404,
       body := { id := "", key := "", name := "", issueTypes := [] } } :
        HttpResponse).statusCode = 404 ∧
    ((∃ e, Client.get_project
        { statusCode := 404,
          body := { id := "", key := "", name := "", issueTypes := [] } } =
        Except.error e) ∧
     (∀ s, Client.get_project s ≠ Except.ok none)) :=
  ⟨rfl, c10_get_project_404_raises _ rfl⟩

/-- C3 (amended).  The foreground query `search_for_issues_cached` performs
network I/O itself exactly when the cached entry for the key is missing or
stale: on that path it synchronously calls `jira.get_total(project_key)`
(jira.py lines 93-101, a blocking `requests.get`) before spawning the
background update; when the entry is fresh it performs no network I/O.  The
claim that it never performs network I/O is refuted by
`c3_foreground_network_counterexample`. -/
theorem c3_foreground_network (env : FgEnv) (query : Option String)
    (filt : String → List Issue → List Issue) (projectKey : String) :
    (search_for_issues_cached env query filt projectKey).netCalls =
      (if cached_data_fresh env.entry env.now 600 = true then []
       else [NetCall.getTotal projectKey]) := by
  unfold search_for_issues_cached
  cases hc : cached_data_fresh env.entry env.now 600 <;>
    simp [hc, apply_ite FgOut.netCalls]

/-- C3 counterexample.  With no cached entry (so the entry is classified
Missing, not fresh), the foreground query itself performs a network call —
the synchronous total-count request — refuting the claim that it completes
without performing any network I/O for every query. -/
theorem c3_foreground_network_counterexample :
    ¬((search_for_issues_cached
        { entry := none, now := 0, running := fun _ => false }
        none (fun _ l => l) "PROJ").netCalls = []) := by
  decide

/-- C4 (amended).  The job name handed to `run_in_background` is the constant
string `'update'` for every project key, so there is a single job slot for
all keys rather than one per key: at most one live refresh job exists in the
whole system, and a new job is spawned exactly when the cached entry is not
fresh and no job named `'update'` is alive — regardless of which key that
live job is refreshing.  Consequently refreshes for distinct keys are not
independent; `c4_per_key_jobs_counterexample` refutes the claimed per-key
independence. -/
theorem c4_single_update_job_slot (env : FgEnv) (query : Option String)
    (filt : String → List Issue → List Issue) (projectKey : String) :
    ((search_for_issues_cached env query filt projectKey).jobName = none ∨
     (search_for_issues_cached env query filt projectKey).jobName = some "update") ∧
    ((search_for_issues_cached env query filt projectKey).spawned = true ↔
      (cached_data_fresh env.entry env.now 600 = false ∧
       env.running "update" = false)) := by
  unfold search_for_issues_cached
  cases hc : cached_data_fresh env.entry env.now 600 <;>
    cases hr : env.running "update" <;>
    simp [hc, hr, apply_ite FgOut.jobName, apply_ite FgOut.spawned]

/-- C4 counterexample.  A query for key "A" with an empty cache spawns a
background job under the name `'update'`.  While that job is alive, a query
for the distinct key "B" — whose cache is also empty, so a refresh is wanted
— invokes `run_in_background` with the same constant name `'update'` and
therefore spawns nothing: the live refresh for "A" prevents the refresh for
"B" from being spawned, refuting per-key independence. -/
theorem c4_per_key_jobs_counterexample :
    (search_for_issues_cached { entry := none, now := 0, running := fun _ => false }
        none (fun _ l => l) "A").spawned = true ∧
    (search_for_issues_cached { entry := none, now := 0, running := fun _ => false }
        none (fun _ l => l) "A").jobName = some "update" ∧
    (search_for_issues_cached { entry := none, now := 0, running := fun n => n == "update" }
        none (fun _ l => l) "B").spawned = false ∧
    (search_for_issues_cached { entry := none, now := 0, running := fun n => n == "update" }
        none (fun _ l => l) "B").jobName = some "update" := by
  decide

/-- Helper: under the recency-list capacity invariant (length at most 9),
`add_recent` is exactly "remove the key, push it to the front, truncate to
capacity 9". -/
theorem add_recent_eq_take (l : List String) (k : String)
    (hlen : l.length ≤ 9) :
    add_recent l k = (k :: l.erase k).take 9 := by
  simp only [add_recent]
  by_cases hk : k ∈ l
  · rw [if_pos hk]
    have h0 : 0 < l.length := List.length_pos_of_mem hk
    have h1 : (l.erase k).length = l.length - 1 := by
      rw [List.length_erase]
      simp [hk]
    have h2 : (k :: l.erase k).length ≤ 9 := by
      simp only [List.length_cons, h1]
      omega
    rw [if_neg (by omega), List.take_of_length_le h2]
  · rw [if_neg hk, List.erase_of_not_mem hk]
    by_cases h9 : (k :: l).length > 9
    · rw [if_pos h9, List.dropLast_eq_take]
      have h3 : (k :: l).length - 1 = 9 := by
        simp only [List.length_cons] at h9 ⊢
        omega
      rw [h3]
    · rw [if_neg h9, List.take_of_length_le (by omega)]

/-- C5 (confirmed).  `add_recent` removes the key if present, inserts it at
the front and truncates to capacity 9 (the persisted list is the returned
one); `touch "A"; touch "B"; touch "A"` from the empty list yields
`["A", "B"]`; and touching a 10th distinct key when the list holds 9 entries
evicts the least-recently-touched entry, leaving exactly 9 entries. -/
theorem c5_touch_recency (l : List String) (k : String) (hlen : l.length ≤ 9) :
    add_recent l k = (k :: l.erase k).take 9 ∧
    add_recent (add_recent (add_recent [] "A") "B") "A" = ["A", "B"] ∧
    (l.length = 9 → k ∉ l →
      add_recent l k = k :: l.dropLast ∧ (add_recent l k).length = 9) := by
  refine ⟨add_recent_eq_take l k hlen, by decide, ?_⟩
  intro h9 hk
  have hne : l ≠ [] := by
    intro h
    rw [h] at h9
    simp at h9
  have e1 : add_recent l k = k :: l.dropLast := by
    simp only [add_recent]
    rw [if_neg hk, if_pos (by simp [h9]), List.dropLast_cons_of_ne_nil hne]
  refine ⟨e1, ?_⟩
  rw [e1]
  simp [List.length_dropLast, h9]

/-- Witness for `c5_touch_recency`: a full list of nine distinct keys touched
with a tenth distinct key. -/
theorem c5_touch_recency_witness :
    (["B", "C", "D", "E", "F", "G", "H", "I", "J"] : List String).length ≤ 9 ∧
    (add_recent ["B", "C", "D", "E", "F", "G", "H", "I", "J"] "A" =
      ("A" :: (["B", "C", "D", "E", "F", "G", "H", "I", "J"] : List String).erase "A").take 9 ∧
     add_recent (add_recent (add_recent [] "A") "B") "A" = ["A", "B"] ∧
     ((["B", "C", "D", "E", "F", "G", "H", "I", "J"] : List String).length = 9 →
      "A" ∉ (["B", "C", "D", "E", "F", "G", "H", "I", "J"] : List String) →
      add_recent ["B", "C", "D", "E", "F", "G", "H", "I", "J"] "A" =
        "A" :: (["B", "C", "D", "E", "F", "G", "H", "I", "J"] : List String).dropLast ∧
      (add_recent ["B", "C", "D", "E", "F", "G", "H", "I", "J"] "A").length = 9)) :=
  ⟨by decide, c5_touch_recency ["B", "C", "D", "E", "F", "G", "H", "I", "J"] "A" (by decide)⟩

/-- Helper: if the page at any of the issued offsets fails, the whole
failure-aware fetch fails (the futures are joined in offset order and any
`future.result()` exception propagates). -/
theorem get_issuesE_none_of_mem (total m : Nat) (hm : 0 < m)
    (pageE : Nat → Option (List Issue)) :
    ∀ startAt o, o ∈ issued_offsets total m hm startAt → pageE o = none →
      get_issuesE total m hm pageE startAt = none := by
  have H : ∀ k startAt o, total - startAt ≤ k →
      o ∈ issued_offsets total m hm startAt → pageE o = none →
      get_issuesE total m hm pageE startAt = none := by
    intro k
    induction k with
    | zero =>
      intro s o hle hmem hnone
      rw [issued_offsets, get_issues] at hmem
      rw [dif_neg (by omega)] at hmem
      simp at hmem
      rw [get_issuesE, dif_neg (by omega)]
      rw [hmem] at hnone
      exact hnone
    | succ k ih =>
      intro s o hle hmem hnone
      rw [issued_offsets, get_issues] at hmem
      rw [get_issuesE]
      by_cases h : s + m < total
      · rw [dif_pos h] at hmem
        rw [dif_pos h]
        simp at hmem
        rcases hmem with hos | hmem2
        · rw [hos] at hnone
          cases get_issuesE total m hm pageE (s + m) <;> simp [hnone]
        · have hrec := ih (s + m) o (by omega)
            (by rw [issued_offsets]; exact hmem2) hnone
          rw [hrec]
      · rw [dif_neg h] at hmem
        rw [dif_neg h]
        simp at hmem
        rw [hmem] at hnone
        exact hnone
  intro startAt o hmem hnone
  exact H (total - startAt) startAt o le_rfl hmem hnone

/-- C2 (confirmed; the cache layer is modelled from the spec).  If any single
page fetch of a refresh cycle fails — including by timeout — the whole fetch
raises, the background run reports failure with no result, and the cache
entry is left exactly as it was; and in every run, the cache entry changes
only when the whole fetch succeeded, in which case it is overwritten
wholesale with the fetched value and a reset timestamp.  The hypotheses
`hstale` and `hzero` say the entry was due for a refresh (the state in which
the foreground spawns the background update). -/
theorem c2_all_or_nothing (total m : Nat) (hm : 0 < m)
    (pageE : Nat → Option (List Issue)) (entry : Option CacheEntry)
    (now maxAge : Int) (p : String) (o : Nat)
    (hstale : cached_data_fresh entry now maxAge = false)
    (hzero : ¬(maxAge = 0 ∧ entry.isSome = true))
    (ho : o ∈ issued_offsets total m hm 0) (hfail : pageE o = none) :
    get_all_issuesE total m hm pageE = none ∧
    (update_main entry now
        { total := total, maxResults := m, maxAge := maxAge, project := p }
        hm pageE).raised = true ∧
    (update_main entry now
        { total := total, maxResults := m, maxAge := maxAge, project := p }
        hm pageE).value = none ∧
    (update_main entry now
        { total := total, maxResults := m, maxAge := maxAge, project := p }
        hm pageE).store = entry ∧
    (∀ pageE2,
      (update_main entry now
          { total := total, maxResults := m, maxAge := maxAge, project := p }
          hm pageE2).store ≠ entry →
      ∃ v, get_all_issuesE total m hm pageE2 = some v ∧
        (update_main entry now
            { total := total, maxResults := m, maxAge := maxAge, project := p }
            hm pageE2).store = some { value := v, storedAt := now } ∧
        (update_main entry now
            { total := total, maxResults := m, maxAge := maxAge, project := p }
            hm pageE2).raised = false) := by
  have hcond : ¬(cached_data_fresh entry now maxAge = true ∨
      (maxAge = 0 ∧ entry.isSome = true)) := by
    rintro (h | h)
    · rw [hstale] at h
      exact Bool.false_ne_true h
    · exact hzero h
  have hnone : get_all_issuesE total m hm pageE = none :=
    get_issuesE_none_of_mem total m hm pageE 0 o ho hfail
  have e1 : update_main entry now
      { total := total, maxResults := m, maxAge := maxAge, project := p }
      hm pageE =
      { store := entry, value := none, fetched := true, raised := true } := by
    unfold update_main cached_data
    rw [if_neg hcond]
    simp only [hnone]
  refine ⟨hnone, by rw [e1], by rw [e1], by rw [e1], ?_⟩
  intro pageE2 hne
  unfold update_main cached_data at hne ⊢
  rw [if_neg hcond] at hne ⊢
  cases hres : get_all_issuesE total m hm pageE2 with
  | none => simp [hres] at hne
  | some v =>
    refine ⟨v, rfl, ?_, ?_⟩ <;> simp [hres]

/-- Witness for `c2_all_or_nothing`: a 125-record fetch with page size 50
whose middle page (offset 50) times out, against a stale cache entry. -/
theorem c2_all_or_nothing_witness :
    cached_data_fresh (some { value := [], storedAt := 0 }) 1000 600 = false ∧
    ¬((600 : Int) = 0 ∧ (some { value := [], storedAt := 0 } :
        Option CacheEntry).isSome = true) ∧
    50 ∈ issued_offsets 125 50 (by decide) 0 ∧
    (fun off => if off = 50 then none else some ([] : List Issue)) 50 = none ∧
    (get_all_issuesE 125 50 (by decide)
        (fun off => if off = 50 then none else some []) = none ∧
     (update_main (some { value := [], storedAt := 0 }) 1000
        { total := 125, maxResults := 50, maxAge := 600, project := "P" }
        (by decide) (fun off => if off = 50 then none else some [])).raised = true ∧
     (update_main (some { value := [], storedAt := 0 }) 1000
        { total := 125, maxResults := 50, maxAge := 600, project := "P" }
        (by decide) (fun off => if off = 50 then none else some [])).value = none ∧
     (update_main (some { value := [], storedAt := 0 }) 1000
        { total := 125, maxResults := 50, maxAge := 600, project := "P" }
        (by decide) (fun off => if off = 50 then none else some [])).store =
       some { value := [], storedAt := 0 } ∧
     (∀ pageE2,
        (update_main (some { value := [], storedAt := 0 }) 1000
          { total := 125, maxResults := 50, maxAge := 600, project := "P" }
          (by decide) pageE2).store ≠ some { value := [], storedAt := 0 } →
        ∃ v, get_all_issuesE 125 50 (by decide) pageE2 = some v ∧
          (update_main (some { value := [], storedAt := 0 }) 1000
            { total := 125, maxResults := 50, maxAge := 600, project := "P" }
            (by decide) pageE2).store = some { value := v, storedAt := 1000 } ∧
          (update_main (some { value := [], storedAt := 0 }) 1000
            { total := 125, maxResults := 50, maxAge := 600, project := "P" }
            (by decide) pageE2).raised = false)) :=
  ⟨by decide, by decide, by simp [issued_offsets, get_issues], by simp,
   c2_all_or_nothing 125 50 (by decide) _ _ 1000 600 "P" 50 (by decide)
     (by decide) (by simp [issued_offsets, get_issues]) (by simp)⟩

/-- Helper: every issue produced by resolving keys through `lookup` carries a
key from the input list (the upstream gateway returns the issue stored under
the requested key). -/
theorem key_mem_of_mem_filterMap (lookup : String → Option Issue)
    (hkey : ∀ s i, lookup s = some i → i.key = s)
    (l : List String) (a : Issue) (ha : a ∈ l.filterMap lookup) :
    a.key ∈ l := by
  rw [List.mem_filterMap] at ha
  obtain ⟨s, hs, hval⟩ := ha
  rw [hkey s a hval]
  exact hs

/-- Helper: resolving a duplicate-free key list in order yields issues whose
positions in the original list are strictly increasing. -/
theorem pairwise_indexOf_filterMap (lookup : String → Option Issue)
    (hkey : ∀ s i, lookup s = some i → i.key = s) :
    ∀ l : List String, l.Nodup →
      (l.filterMap lookup).Pairwise
        (fun a b => l.indexOf a.key < l.indexOf b.key) := by
  intro l
  induction l with
  | nil => simp
  | cons k ks ih =>
    intro hnd
    rw [List.nodup_cons] at hnd
    obtain ⟨hk, hnd2⟩ := hnd
    have hshift : ∀ a : Issue, a ∈ ks.filterMap lookup →
        (k :: ks).indexOf a.key = (ks.indexOf a.key) + 1 := by
      intro a ha
      have hmem := key_mem_of_mem_filterMap lookup hkey ks a ha
      have hne : k ≠ a.key := by
        intro h
        exact hk (h ▸ hmem)
      rw [List.indexOf_cons_ne _ hne]
    cases hlk : lookup k with
    | none =>
      simp only [List.filterMap_cons, hlk]
      exact List.Pairwise.imp_of_mem
        (fun ha hb hlt => by rw [hshift _ ha, hshift _ hb]; omega)
        (ih hnd2)
    | some i =>
      simp only [List.filterMap_cons, hlk]
      refine List.Pairwise.cons ?_ ?_
      · intro b hb
        rw [hkey k i hlk, List.indexOf_cons_self, hshift b hb]
        omega
      · exact List.Pairwise.imp_of_mem
          (fun ha hb hlt => by rw [hshift _ ha, hshift _ hb]; omega)
          (ih hnd2)

/-- Helper: a stable sort by strictly increasing numeric position recovers the
uniquely determined ordering: sorting any permutation of `ys` by `f` gives
back `ys` itself when `f` is strictly increasing along `ys`. -/
theorem insertionSort_eq_of_pairwise_lt (f : Issue → Nat) (xs ys : List Issue)
    (hp : xs.Perm ys) (hys : ys.Pairwise (fun a b => f a < f b)) :
    List.insertionSort (fun a b => f a ≤ f b) xs = ys := by
  haveI : IsTotal Issue (fun a b => f a ≤ f b) :=
    ⟨fun a b => Nat.le_total (f a) (f b)⟩
  haveI : IsTrans Issue (fun a b => f a ≤ f b) :=
    ⟨fun a b c h1 h2 => Nat.le_trans h1 h2⟩
  haveI : IsAntisymm Issue (fun a b => f a < f b) :=
    ⟨fun a b h1 h2 => absurd h2 (Nat.lt_asymm h1)⟩
  have hsorted := List.sorted_insertionSort (fun a b => f a ≤ f b) xs
  have hperm : (List.insertionSort (fun a b => f a ≤ f b) xs).Perm ys :=
    (List.perm_insertionSort _ xs).trans hp
  have hnodupf : ((List.insertionSort (fun a b => f a ≤ f b) xs).map f).Nodup := by
    have h1 : (ys.map f).Pairwise (· < ·) := List.pairwise_map.mpr hys
    have h2 : (ys.map f).Nodup := h1.imp (fun h => Nat.ne_of_lt h)
    exact ((hperm.map f).nodup_iff).mpr h2
  have hstrict : (List.insertionSort (fun a b => f a ≤ f b) xs).Pairwise
      (fun a b => f a < f b) := by
    have hne : (List.insertionSort (fun a b => f a ≤ f b) xs).Pairwise
        (fun a b => f a ≠ f b) := List.pairwise_map.mp hnodupf
    exact (hsorted.and hne).imp (fun h => Nat.lt_of_le_of_ne h.1 h.2)
  exact List.eq_of_perm_of_sorted hperm hstrict hys

/-- Helper: restricting a key list to its resolving keys does not change the
result of resolving it. -/
theorem filterMap_filter_isSome (lookup : String → Option Issue) :
    ∀ l : List String,
      (l.filter (fun k => (lookup k).isSome)).filterMap lookup =
        l.filterMap lookup := by
  intro l
  induction l with
  | nil => rfl
  | cons k ks ih =>
    cases hlk : lookup k <;>
      simp [List.filter_cons, List.filterMap_cons, hlk, ih]

/-- Helper: after filtering for resolving keys, every key resolves. -/
theorem all_isSome_filter (lookup : String → Option Issue)
    (l : List String) :
    (l.filter (fun k => (lookup k).isSome)).all
      (fun k => (lookup k).isSome) = true := by
  rw [List.all_eq_true]
  intro x hx
  exact (List.mem_filter.mp hx).2

/-- Helper: resolving loses no entries exactly when every key resolves. -/
theorem length_filterMap_eq_iff (lookup : String → Option Issue) :
    ∀ l : List String,
      ((l.filterMap lookup).length = l.length ↔
        ∀ k ∈ l, (lookup k).isSome = true) := by
  intro l
  induction l with
  | nil => simp
  | cons k ks ih =>
    cases hlk : lookup k with
    | none =>
      have hle := List.length_filterMap_le lookup ks
      simp [List.filterMap_cons, hlk]
      omega
    | some i =>
      simp [List.filterMap_cons, hlk, ih]

/-- Helper: the keys of the resolved issues, in order, are exactly the keys
that resolve, in order. -/
theorem map_key_filterMap (lookup : String → Option Issue)
    (hkey : ∀ s i, lookup s = some i → i.key = s) :
    ∀ l : List String,
      (l.filterMap lookup).map Issue.key =
        l.filter (fun k => (lookup k).isSome) := by
  intro l
  induction l with
  | nil => rfl
  | cons k ks ih =>
    cases hlk : lookup k with
    | none => simp [List.filterMap_cons, List.filter_cons, hlk, ih]
    | some i => simp [List.filterMap_cons, List.filter_cons, hlk, ih, hkey k i hlk]

/-- Helper: behaviour of one top-level `Client.get_issues` call: the bulk
search comes first in the request trace; the result is the issues of the
resolving keys in server order; and when every key resolves, the single bulk
request is the only one issued. -/
theorem client_get_issues_spec (lookup : String → Option Issue)
    (serverOrder : List Issue → List Issue) (l : List String) :
    (Client.get_issues lookup serverOrder l false).2 =
      some (serverOrder (l.filterMap lookup)) ∧
    (Client.get_issues lookup serverOrder l false).1.head? =
      some (JiraReq.bulkSearch l) ∧
    ((∀ k ∈ l, (lookup k).isSome = true) →
      (Client.get_issues lookup serverOrder l false).1 =
        [JiraReq.bulkSearch l]) := by
  by_cases hall : l.all (fun k => (lookup k).isSome) = true
  · unfold Client.get_issues
    rw [if_pos hall]
    exact ⟨rfl, rfl, fun _ => rfl⟩
  · unfold Client.get_issues
    rw [if_neg hall, dif_pos rfl]
    unfold Client.get_issues
    refine ⟨?_, ?_, ?_⟩
    · simp [all_isSome_filter lookup l, filterMap_filter_isSome lookup l]
    · simp
    · intro hres
      exact absurd (List.all_eq_true.mpr hres) hall

/-- Helper: full characterisation of `search_for_recent` under the standard
environment hypotheses (duplicate-free stored list, the bulk search returns
some permutation of the resolving issues, and the gateway returns each issue
under its own key): the issues shown are the resolving keys' issues in
original recency order; the persisted list afterwards is the original list
restricted to its resolving keys (in particular unchanged when all resolve);
the request trace starts with the bulk search whenever the list is
non-empty, and is exactly the one bulk search when every key resolves. -/
theorem search_for_recent_spec (l : List String)
    (lookup : String → Option Issue) (serverOrder : List Issue → List Issue)
    (hnd : l.Nodup) (hperm : ∀ xs, (serverOrder xs).Perm xs)
    (hkey : ∀ s i, lookup s = some i → i.key = s) :
    (search_for_recent l lookup serverOrder).issues = l.filterMap lookup ∧
    (search_for_recent l lookup serverOrder).persisted =
      l.filter (fun k => (lookup k).isSome) ∧
    (l ≠ [] → (search_for_recent l lookup serverOrder).reqs.head? =
      some (JiraReq.bulkSearch l)) ∧
    ((∀ k ∈ l, (lookup k).isSome = true) → l ≠ [] →
      (search_for_recent l lookup serverOrder).reqs =
        [JiraReq.bulkSearch l]) := by
  by_cases hl : 0 < l.length
  · have hlne : l ≠ [] := by
      intro h
      rw [h] at hl
      simp at hl
    obtain ⟨h2, hhead, htrace⟩ := client_get_issues_spec lookup serverOrder l
    have hrecent : ((Client.get_issues lookup serverOrder l false).2).getD [] =
        serverOrder (l.filterMap lookup) := by
      rw [h2]
      rfl
    have hsorted : List.insertionSort
        (fun a b => l.indexOf a.key ≤ l.indexOf b.key)
        (serverOrder (l.filterMap lookup)) = l.filterMap lookup :=
      insertionSort_eq_of_pairwise_lt (fun i => l.indexOf i.key) _ _
        (hperm _) (pairwise_indexOf_filterMap lookup hkey l hnd)
    have hlen2 : (serverOrder (l.filterMap lookup)).length =
        (l.filterMap lookup).length := (hperm _).length_eq
    unfold search_for_recent
    rw [if_pos hl]
    simp only [hrecent, hsorted, hlen2]
    refine ⟨by trivial, ?_, fun _ => hhead, fun hall _ => htrace hall⟩
    by_cases heq : (l.filterMap lookup).length = l.length
    · rw [if_neg (by omega)]
      have hall := (length_filterMap_eq_iff lookup l).mp heq
      rw [List.filter_eq_self.mpr hall]
    · rw [if_pos (by omega)]
      exact map_key_filterMap lookup hkey l
  · have hnil : l = [] := by
      cases l with
      | nil => rfl
      | cons a as => simp at hl
    subst hnil
    unfold search_for_recent
    exact ⟨rfl, rfl, fun h => absurd rfl h, fun _ h => absurd rfl h⟩

/-- C6 (confirmed).  Both mutations of the persisted recency list preserve
its invariant.  Touching: starting from a duplicate-free list of at most 9
keys, `add_recent` returns a duplicate-free list of at most 9 keys whose
head is the touched key and whose tail is a sublist of the previous list
(most-recent-first order is preserved).  Pruning: the list
`search_for_recent` persists is a sublist of the stored one (so order is
kept), duplicate-free, of length at most 9. -/
theorem c6_recency_invariants (l : List String) (k : String)
    (lookup : String → Option Issue) (serverOrder : List Issue → List Issue)
    (hnd : l.Nodup) (hlen : l.length ≤ 9)
    (hperm : ∀ xs, (serverOrder xs).Perm xs)
    (hkey : ∀ s i, lookup s = some i → i.key = s) :
    ((add_recent l k).length ≤ 9 ∧ (add_recent l k).Nodup ∧
     (add_recent l k).head? = some k ∧ (add_recent l k).tail.Sublist l) ∧
    ((search_for_recent l lookup serverOrder).persisted.length ≤ 9 ∧
     (search_for_recent l lookup serverOrder).persisted.Nodup ∧
     (search_for_recent l lookup serverOrder).persisted.Sublist l) := by
  constructor
  · rw [add_recent_eq_take l k hlen]
    have hnd2 : (k :: l.erase k).Nodup := by
      rw [List.nodup_cons]
      constructor
      · intro hmem
        exact absurd (hnd.mem_erase_iff.mp hmem).1 (by simp)
      · exact hnd.erase k
    refine ⟨?_, ?_, ?_, ?_⟩
    · simp [List.length_take]
    · exact ((List.take_sublist 9 _).nodup) hnd2
    · rw [show (9 : Nat) = 8 + 1 from rfl, List.take_succ_cons]
      rfl
    · rw [show (9 : Nat) = 8 + 1 from rfl, List.take_succ_cons]
      exact ((List.take_sublist 8 _).trans (List.erase_sublist k l))
  · obtain ⟨hiss, hpers, hh, ht⟩ :=
      search_for_recent_spec l lookup serverOrder hnd hperm hkey
    rw [hpers]
    refine ⟨?_, ?_, List.filter_sublist l⟩
    · exact le_trans (List.length_filter_le _ l) hlen
    · exact (List.filter_sublist l).nodup hnd

/-- Witness for `c6_recency_invariants`: nine stored keys, one of which no
longer resolves upstream, the server answering the bulk search in reverse
order. -/
theorem c6_recency_invariants_witness :
    (["K1", "K2", "K3"] : List String).Nodup ∧
    (["K1", "K2", "K3"] : List String).length ≤ 9 ∧
    (((add_recent ["K1", "K2", "K3"] "K9").length ≤ 9 ∧
      (add_recent ["K1", "K2", "K3"] "K9").Nodup ∧
      (add_recent ["K1", "K2", "K3"] "K9").head? = some "K9" ∧
      (add_recent ["K1", "K2", "K3"] "K9").tail.Sublist ["K1", "K2", "K3"]) ∧
     ((search_for_recent ["K1", "K2", "K3"]
        (fun s => if s = "K2" then none
          else some { key := s, summary := "", description := "",
                      issueType := "", status := "", resolved := false })
        List.reverse).persisted.length ≤ 9 ∧
      (search_for_recent ["K1", "K2", "K3"]
        (fun s => if s = "K2" then none
          else some { key := s, summary := "", description := "",
                      issueType := "", status := "", resolved := false })
        List.reverse).persisted.Nodup ∧
      (search_for_recent ["K1", "K2", "K3"]
        (fun s => if s = "K2" then none
          else some { key := s, summary := "", description := "",
                      issueType := "", status := "", resolved := false })
        List.reverse).persisted.Sublist ["K1", "K2", "K3"])) :=
  ⟨by decide, by decide,
   c6_recency_invariants ["K1", "K2", "K3"] "K9"
     (fun s => if s = "K2" then none
       else some { key := s, summary := "", description := "",
                   issueType := "", status := "", resolved := false })
     List.reverse (by decide) (by decide)
     (fun xs => xs.reverse_perm)
     (by
       intro s i h
       by_cases hs : s = "K2"
       · simp [hs] at h
       · simp [hs] at h
         subst h
         rfl)⟩

/-- C7 (confirmed).  Resolving the recency list attempts one bulk lookup
first (the head of the request trace is the bulk search, and when every key
resolves it is the only request); every key that fails to resolve is dropped
from the persisted list while the resolving keys stay in their original
relative order (the persisted list is the stored list restricted to its
resolving keys — in particular, with 3 stored keys of which one fails,
exactly that key is pruned); and the issues returned are those of the
resolving keys in original recency order, not in lookup-completion or
server order. -/
theorem c7_resolve_recency (l : List String)
    (lookup : String → Option Issue) (serverOrder : List Issue → List Issue)
    (hnd : l.Nodup) (hperm : ∀ xs, (serverOrder xs).Perm xs)
    (hkey : ∀ s i, lookup s = some i → i.key = s) :
    (search_for_recent l lookup serverOrder).issues = l.filterMap lookup ∧
    (search_for_recent l lookup serverOrder).persisted =
      l.filter (fun k => (lookup k).isSome) ∧
    (l ≠ [] → (search_for_recent l lookup serverOrder).reqs.head? =
      some (JiraReq.bulkSearch l)) ∧
    ((∀ k ∈ l, (lookup k).isSome = true) → l ≠ [] →
      (search_for_recent l lookup serverOrder).reqs =
        [JiraReq.bulkSearch l]) :=
  search_for_recent_spec l lookup serverOrder hnd hperm hkey

/-- Witness for `c7_resolve_recency`: three stored keys of which the middle
one fails to resolve, the server answering the bulk search in reverse order;
the resolved issues come back in original recency order `K1, K3` and exactly
the failing key `K2` is pruned from the persisted list. -/
theorem c7_resolve_recency_witness :
    (["K1", "K2", "K3"] : List String).Nodup ∧
    ((search_for_recent ["K1", "K2", "K3"]
        (fun s => if s = "K9" then (none : Option Issue)
          else if s = "K2" then none
          else some { key := s, summary := "", description := "",
                      issueType := "", status := "", resolved := false })
        List.reverse).issues =
      (["K1", "K2", "K3"] : List String).filterMap
        (fun s => if s = "K9" then (none : Option Issue)
          else if s = "K2" then none
          else some { key := s, summary := "", description := "",
                      issueType := "", status := "", resolved := false }) ∧
     (search_for_recent ["K1", "K2", "K3"]
        (fun s => if s = "K9" then (none : Option Issue)
          else if s = "K2" then none
          else some { key := s, summary := "", description := "",
                      issueType := "", status := "", resolved := false })
        List.reverse).persisted =
      (["K1", "K2", "K3"] : List String).filter
        (fun k => ((fun s => if s = "K9" then (none : Option Issue)
          else if s = "K2" then none
          else some { key := s, summary := "", description := "",
                      issueType := "", status := "", resolved := false }) k).isSome) ∧
     ((["K1", "K2", "K3"] : List String) ≠ [] →
      (search_for_recent ["K1", "K2", "K3"]
        (fun s => if s = "K9" then (none : Option Issue)
          else if s = "K2" then none
          else some { key := s, summary := "", description := "",
                      issueType := "", status := "", resolved := false })
        List.reverse).reqs.head? =
        some (JiraReq.bulkSearch ["K1", "K2", "K3"])) ∧
     ((∀ k ∈ (["K1", "K2", "K3"] : List String),
        ((fun s => if s = "K9" then (none : Option Issue)
          else if s = "K2" then none
          else some { key := s, summary := "", description := "",
                      issueType := "", status := "", resolved := false }) k).isSome = true) →
      (["K1", "K2", "K3"] : List String) ≠ [] →
      (search_for_recent ["K1", "K2", "K3"]
        (fun s => if s = "K9" then (none : Option Issue)
          else if s = "K2" then none
          else some { key := s, summary := "", description := "",
                      issueType := "", status := "", resolved := false })
        List.reverse).reqs =
        [JiraReq.bulkSearch ["K1", "K2", "K3"]])) :=
  ⟨by decide,
   c7_resolve_recency ["K1", "K2", "K3"]
     (fun s => if s = "K9" then (none : Option Issue)
       else if s = "K2" then none
       else some { key := s, summary := "", description := "",
                   issueType := "", status := "", resolved := false })
     List.reverse (by decide)
     (fun xs => xs.reverse_perm)
     (by
       intro s i h
       by_cases h9 : s = "K9"
       · simp [h9] at h
       · by_cases hs : s = "K2"
         · simp [h9, hs] at h
         · simp [h9, hs] at h
           subst h
           rfl)⟩

/-- C8 (amended).  In update.py's CLI contract, page-size (`--max-results`)
defaults to 50 and max-age (`--max-age`) defaults to 600 seconds; but the
max-age value is not merely diagnostic: `main` passes it to
`wf.cached_data(project_key, fetch, max_age=args.max_age)`, so the refresh
fetches and rewrites the cache entry exactly when the existing entry is not
fresh under that max-age (and the `max_age = 0` read-through special case
does not apply).  `c8_max_age_counterexample` refutes the claimed
independence from max-age. -/
theorem c8_update_cli_defaults (entry : Option CacheEntry) (now : Int)
    (args : UpdateArgs) (hm : 0 < args.maxResults)
    (pageE : Nat → Option (List Issue)) :
    parse_update_args [UpdateArg.total 125, UpdateArg.project "P"] =
      some { total := 125, maxResults := 50, maxAge := 600, project := "P" } ∧
    ((update_main entry now args hm pageE).fetched = true ↔
      ¬(cached_data_fresh entry now args.maxAge = true ∨
        (args.maxAge = 0 ∧ entry.isSome = true))) := by
  refine ⟨rfl, ?_⟩
  unfold update_main cached_data
  by_cases h : cached_data_fresh entry now args.maxAge = true ∨
      (args.maxAge = 0 ∧ entry.isSome = true)
  · rw [if_pos h]
    simp [h]
  · rw [if_neg h]
    cases hres : get_all_issuesE args.total args.maxResults hm pageE <;> simp [h]

/-- Witness for `c8_update_cli_defaults` at a concrete stale entry. -/
theorem c8_update_cli_defaults_witness :
    (0 : Nat) <
      ({ total := 125, maxResults := 50, maxAge := 600, project := "P" } :
        UpdateArgs).maxResults ∧
    (parse_update_args [UpdateArg.total 125, UpdateArg.project "P"] =
      some { total := 125, maxResults := 50, maxAge := 600, project := "P" } ∧
     ((update_main (some { value := [], storedAt := 0 }) 1000
        { total := 125, maxResults := 50, maxAge := 600, project := "P" }
        (by decide) (fun _ => some [])).fetched = true ↔
      ¬(cached_data_fresh (some { value := [], storedAt := 0 }) 1000
          ({ total := 125, maxResults := 50, maxAge := 600, project := "P" } :
            UpdateArgs).maxAge = true ∨
        (({ total := 125, maxResults := 50, maxAge := 600, project := "P" } :
            UpdateArgs).maxAge = 0 ∧
         (some { value := [], storedAt := 0 } :
            Option CacheEntry).isSome = true)))) :=
  ⟨by decide,
   c8_update_cli_defaults (some { value := [], storedAt := 0 }) 1000
     { total := 125, maxResults := 50, maxAge := 600, project := "P" }
     (by decide) (fun _ => some [])⟩

/-- C8 counterexample.  Whether the background run refetches and rewrites the
cache entry depends on the max-age argument: with an entry 100 seconds old
and every page available, `--max-age 600` leaves the entry untouched and
fetches nothing, while `--max-age 50` fetches and rewrites it with a reset
timestamp — refuting the claim that max-age is used only for
logging/diagnostics. -/
theorem c8_max_age_counterexample :
    (update_main (some { value := [], storedAt := 0 }) 100
      { total := 125, maxResults := 50, maxAge := 600, project := "P" }
      (by decide) (fun _ => some [])).fetched = false ∧
    (update_main (some { value := [], storedAt := 0 }) 100
      { total := 125, maxResults := 50, maxAge := 600, project := "P" }
      (by decide) (fun _ => some [])).store =
      some { value := [], storedAt := 0 } ∧
    (update_main (some { value := [], storedAt := 0 }) 100
      { total := 125, maxResults := 50, maxAge := 50, project := "P" }
      (by decide) (fun _ => some [])).fetched = true ∧
    (update_main (some { value := [], storedAt := 0 }) 100
      { total := 125, maxResults := 50, maxAge := 50, project := "P" }
      (by decide) (fun _ => some [])).store =
      some { value := [], storedAt := 100 } := by
  refine ⟨?_, ?_, ?_, ?_⟩ <;>
    simp [update_main, cached_data, cached_data_fresh,
      get_all_issuesE, get_issuesE]
